import Mathlib

/-
  Verification development for the Quant-Engine execution core.

  Shallow embedding of the C++ sources:
  - common/types.hpp        : data model (orders, trades, positions, events)
  - common/ring_buffer.hpp  : SPSC ring buffer (RingBuffer)
  - execution/event_processor_impl.hpp : dispatcher (EventProcessorImpl)
  - risk/risk_manager.hpp   : risk engine (RiskManager)
  - execution/order_router.hpp : order router (OrderRouter)
  - algorithm/base_strategy.hpp : strategy lifecycle and position bookkeeping
  - algorithm/stat_arbitrage strategy (StatArbitrage)

  C++ doubles are modelled as exact rationals (ℚ); all inputs used in the
  concrete theorems below are small dyadic/decimal rationals on which IEEE
  double arithmetic is exact, so the control-flow facts proved here hold
  verbatim for the C++ code.  std::map is modelled as an association list
  with first-match lookup and replace-or-append insertion.
-/

namespace QuantEngine

/-! ## Data model (common/types.hpp) -/

inductive OrderType where
  | market
  | limit
  | stopOrder
  | stopLimit
deriving DecidableEq

inductive OrderSide where
  | buy
  | sell
deriving DecidableEq

inductive OrderStatus where
  | pending
  | partialFill
  | filled
  | cancelled
  | rejected
deriving DecidableEq

inductive EventType where
  | marketData
  | orderUpdate
  | tradeUpdate
  | strategySignal
  | systemEvent
deriving DecidableEq

structure Order where
  symbol : String
  type : OrderType
  side : OrderSide
  price : ℚ
  volume : ℚ
  clientOrderId : String
deriving DecidableEq

structure TradeUpdate where
  orderId : String
  symbol : String
  price : ℚ
  volume : ℚ
  side : OrderSide
deriving DecidableEq

structure OrderUpdate where
  orderId : String
  status : OrderStatus
  filledPrice : ℚ
  filledVolume : ℚ
  message : String
deriving DecidableEq

structure MarketData where
  symbol : String
  lastPrice : ℚ
  bestBid : ℚ
  bestAsk : ℚ
  bidVolume : ℚ
  askVolume : ℚ
deriving DecidableEq

structure Position where
  symbol : String
  volume : ℚ
  averagePrice : ℚ
  unrealizedPnl : ℚ
  realizedPnl : ℚ
deriving DecidableEq

inductive StrategyStatus where
  | initialized
  | running
  | stopped
  | error
deriving DecidableEq

/-! ## Ring buffer (common/ring_buffer.hpp)

`RingBuffer` stores `size_` slots; `readIndex_`/`writeIndex_` are kept
reduced modulo `size_` exactly as in the source.  One slot is always kept
logically empty. -/

structure RingBuffer (α : Type) where
  size_ : ℕ
  buf : ℕ → α
  readIndex : ℕ
  writeIndex : ℕ

namespace RingBuffer

variable {α : Type}

/-- `bool push(const T& item)` from ring_buffer.hpp: fails iff advancing the
write index would collide with the read index. -/
def push (r : RingBuffer α) (item : α) : Bool × RingBuffer α :=
  let currentWrite := r.writeIndex
  let nextWrite := (currentWrite + 1) % r.size_
  if nextWrite = r.readIndex then
    (false, r)
  else
    (true, { r with
      buf := fun i => if i = currentWrite then item else r.buf i,
      writeIndex := nextWrite })

/-- `bool pop(T& item)` from ring_buffer.hpp: fails iff read index equals
write index; otherwise copies out and advances the read index. -/
def pop (r : RingBuffer α) : Option α × RingBuffer α :=
  if r.readIndex = r.writeIndex then
    (none, r)
  else
    (some (r.buf r.readIndex), { r with readIndex := (r.readIndex + 1) % r.size_ })

/-- `bool isEmpty() const`. -/
def isEmpty (r : RingBuffer α) : Bool :=
  r.readIndex = r.writeIndex

/-- `bool isFull() const`. -/
def isFull (r : RingBuffer α) : Bool :=
  (r.writeIndex + 1) % r.size_ = r.readIndex

/-- `size_t size() const`: number of occupied slots. -/
def used (r : RingBuffer α) : ℕ :=
  if r.writeIndex ≥ r.readIndex then
    r.writeIndex - r.readIndex
  else
    r.size_ - (r.readIndex - r.writeIndex)

/-- `size_t capacity() const`: one slot is always kept empty. -/
def capacity (r : RingBuffer α) : ℕ :=
  r.size_ - 1

/-- Well-formedness: positive size (asserted in the constructor) and indices
reduced modulo the size, as maintained by push/pop. -/
def WF (r : RingBuffer α) : Prop :=
  0 < r.size_ ∧ r.readIndex < r.size_ ∧ r.writeIndex < r.size_

/-- Abstraction function: the FIFO queue contents, oldest first. -/
def toList (r : RingBuffer α) : List α :=
  (List.range (used r)).map (fun i => r.buf ((r.readIndex + i) % r.size_))

/-- Drain with explicit fuel (structural recursion). -/
def drainAux : ℕ → RingBuffer α → List α
  | 0, _ => []
  | k + 1, r =>
    match r.pop with
    | (some x, r') => x :: drainAux k r'
    | (none, _) => []

/-- Pop everything currently buffered, in delivery order. -/
def drain (r : RingBuffer α) : List α :=
  drainAux r.used r

/-- Push a whole list, dropping failed pushes (the caller's loop). -/
def pushAll (r : RingBuffer α) (l : List α) : RingBuffer α :=
  l.foldl (fun r x => (r.push x).2) r

theorem mod_window (a n : ℕ) (_h0 : 0 < n) (h : a < 2 * n) :
    a % n = if a < n then a else a - n := by
  split
  · exact Nat.mod_eq_of_lt (by assumption)
  · rw [Nat.mod_eq_sub_mod (by omega)]
    exact Nat.mod_eq_of_lt (by omega)

theorem mod_inj {n rd i j : ℕ} (hi : i < n) (hj : j < n)
    (h : (rd + i) % n = (rd + j) % n) : i = j := by
  have h2 : i % n = j % n := Nat.ModEq.add_left_cancel' rd h
  rwa [Nat.mod_eq_of_lt hi, Nat.mod_eq_of_lt hj] at h2

theorem used_lt {r : RingBuffer α} (h : r.WF) : r.used < r.size_ := by
  obtain ⟨-, hr, hw⟩ := h
  unfold used
  split <;> omega

theorem read_add_used {r : RingBuffer α} (h : r.WF) :
    (r.readIndex + r.used) % r.size_ = r.writeIndex := by
  obtain ⟨h0, hr, hw⟩ := h
  have key : r.readIndex + r.used = if r.writeIndex ≥ r.readIndex
      then r.writeIndex else r.size_ + r.writeIndex := by
    unfold used
    split <;> omega
  rw [key]
  split
  · exact Nat.mod_eq_of_lt hw
  · rw [Nat.add_mod_left]
    exact Nat.mod_eq_of_lt hw

theorem length_toList (r : RingBuffer α) : r.toList.length = r.used := by
  simp [toList]

theorem isEmpty_iff_used {r : RingBuffer α} (h : r.WF) :
    r.isEmpty = true ↔ r.used = 0 := by
  obtain ⟨h0, hr, hw⟩ := h
  simp only [isEmpty, decide_eq_true_eq, used]
  constructor
  · intro he
    split <;> omega
  · intro hu
    by_cases hc : r.writeIndex ≥ r.readIndex <;> simp [hc] at hu <;> omega

theorem isFull_iff_used {r : RingBuffer α} (h : r.WF) :
    r.isFull = true ↔ r.used = r.size_ - 1 := by
  obtain ⟨h0, hr, hw⟩ := h
  simp only [isFull, decide_eq_true_eq, used]
  rw [mod_window _ _ h0 (by omega)]
  split <;> split <;> omega

theorem push_fst_iff (r : RingBuffer α) (x : α) :
    (r.push x).1 = false ↔ r.isFull = true := by
  simp only [push, isFull]
  split <;> simp_all

theorem pop_fst_iff (r : RingBuffer α) :
    r.pop.1 = none ↔ r.isEmpty = true := by
  simp only [pop, isEmpty]
  split <;> simp_all

theorem push_success {r : RingBuffer α} {x : α} (h : r.WF)
    (hnf : r.isFull = false) :
    (r.push x).1 = true ∧
    (r.push x).2.used = r.used + 1 ∧
    (r.push x).2.toList = r.toList ++ [x] ∧
    (r.push x).2.WF := by
  obtain ⟨h0, hr, hw⟩ := h
  have hne : (r.writeIndex + 1) % r.size_ ≠ r.readIndex := by
    simpa [isFull] using hnf
  have hpush : r.push x = (true, { r with
      buf := fun i => if i = r.writeIndex then x else r.buf i,
      writeIndex := (r.writeIndex + 1) % r.size_ }) := by
    simp [push, hne]
  have hwin : (r.writeIndex + 1) % r.size_ =
      if r.writeIndex + 1 < r.size_ then r.writeIndex + 1
      else r.writeIndex + 1 - r.size_ := mod_window _ _ h0 (by omega)
  have hused : (r.push x).2.used = r.used + 1 := by
    rw [hpush]
    dsimp only [used]
    rw [hwin]
    rw [hwin] at hne
    split_ifs at hne ⊢ <;> omega
  have hWF : (r.push x).2.WF := by
    rw [hpush]
    exact ⟨h0, hr, Nat.mod_lt _ h0⟩
  have husedlt : r.used < r.size_ := used_lt ⟨h0, hr, hw⟩
  have hraw : (r.readIndex + r.used) % r.size_ = r.writeIndex :=
    read_add_used ⟨h0, hr, hw⟩
  refine ⟨by rw [hpush], hused, ?_, hWF⟩
  have hbufeq : ∀ i ∈ List.range r.used,
      (r.push x).2.buf ((r.readIndex + i) % r.size_) =
      r.buf ((r.readIndex + i) % r.size_) := by
    intro i hi
    rw [List.mem_range] at hi
    rw [hpush]
    simp only
    have : (r.readIndex + i) % r.size_ ≠ r.writeIndex := by
      intro hc
      have : i = r.used := mod_inj (by omega) husedlt (by rw [hc, hraw])
      omega
    simp [this]
  have hlast : (r.push x).2.buf ((r.readIndex + r.used) % r.size_) = x := by
    rw [hpush]
    simp [hraw]
  simp only [toList, hused]
  rw [hpush]
  simp only
  rw [List.range_succ, List.map_append, List.map_cons, List.map_nil]
  congr 1
  · exact List.map_congr_left (by
      intro i hi
      have := hbufeq i hi
      rw [hpush] at this
      exact this)
  · have := hlast
    rw [hpush] at this
    simp only at this
    rw [this]

theorem pop_success {r : RingBuffer α} (h : r.WF)
    (hne : r.isEmpty = false) :
    r.pop = (some (r.buf r.readIndex),
      { r with readIndex := (r.readIndex + 1) % r.size_ }) ∧
    r.pop.2.used = r.used - 1 ∧
    r.toList = r.buf r.readIndex :: r.pop.2.toList ∧
    r.pop.2.WF := by
  obtain ⟨h0, hr, hw⟩ := h
  have hne' : r.readIndex ≠ r.writeIndex := by
    simpa [isEmpty] using hne
  have hpop : r.pop = (some (r.buf r.readIndex),
      { r with readIndex := (r.readIndex + 1) % r.size_ }) := by
    simp [pop, hne']
  have hupos : 0 < r.used := by
    rcases Nat.eq_zero_or_pos r.used with hz | hp
    · exact absurd ((isEmpty_iff_used ⟨h0, hr, hw⟩).2 hz)
        (by simp [isEmpty, hne'])
    · exact hp
  have hwin : (r.readIndex + 1) % r.size_ =
      if r.readIndex + 1 < r.size_ then r.readIndex + 1
      else r.readIndex + 1 - r.size_ := mod_window _ _ h0 (by omega)
  have hused : r.pop.2.used = r.used - 1 := by
    rw [hpop]
    dsimp only [used]
    rw [hwin]
    split_ifs <;> omega
  have hWF : r.pop.2.WF := by
    rw [hpop]
    exact ⟨h0, Nat.mod_lt _ h0, hw⟩
  refine ⟨hpop, hused, ?_, hWF⟩
  obtain ⟨k, hk⟩ : ∃ k, r.used = k + 1 := ⟨r.used - 1, by omega⟩
  simp only [toList, hused, hk, Nat.add_sub_cancel]
  rw [List.range_succ_eq_map, List.map_cons, List.map_map]
  congr 1
  · simp [Nat.mod_eq_of_lt hr]
  · rw [hpop]
    simp only
    refine List.map_congr_left ?_
    intro i _
    simp only [Function.comp]
    rw [Nat.mod_add_mod]
    congr 2
    omega

theorem drain_eq_toList {r : RingBuffer α} (h : r.WF) :
    r.drain = r.toList := by
  suffices H : ∀ k (s : RingBuffer α), s.WF → s.used = k →
      drainAux k s = s.toList by
    exact H r.used r h rfl
  intro k
  induction k with
  | zero =>
    intro s hs hu
    have : s.toList.length = 0 := by rw [length_toList, hu]
    simp only [drainAux]
    exact (List.length_eq_zero.1 this).symm
  | succ k ih =>
    intro s hs hu
    have hne : s.isEmpty = false := by
      cases hb : s.isEmpty
      · rfl
      · have := (isEmpty_iff_used hs).1 hb
        omega
    obtain ⟨hpop, hused, htl, hWF⟩ := pop_success hs hne
    have hstep : drainAux (k + 1) s = s.buf s.readIndex :: drainAux k s.pop.2 := by
      simp only [drainAux]
      rw [hpop]
    rw [hstep, ih s.pop.2 hWF (by omega)]
    exact htl.symm

theorem pushAll_toList {r : RingBuffer α} {l : List α} (h : r.WF)
    (hcap : r.used + l.length ≤ r.capacity) :
    (r.pushAll l).toList = r.toList ++ l ∧ (r.pushAll l).WF := by
  induction l generalizing r with
  | nil => simpa [pushAll]
  | cons x t ih =>
    have h0 : 0 < r.size_ := h.1
    have hnotfull : r.isFull = false := by
      cases hb : r.isFull
      · rfl
      · have := (isFull_iff_used h).1 hb
        simp only [capacity, List.length_cons] at hcap
        omega
    obtain ⟨-, hused, htl, hWF⟩ := push_success (x := x) h hnotfull
    have hsz : (r.push x).2.size_ = r.size_ := by
      dsimp only [push]
      split <;> rfl
    have hcap' : (r.push x).2.used + t.length ≤ (r.push x).2.capacity := by
      simp only [capacity, List.length_cons] at hcap ⊢
      rw [hused, hsz]
      omega
    obtain ⟨ih1, ih2⟩ := ih hWF hcap'
    refine ⟨?_, ?_⟩
    · show ((r.push x).2.pushAll t).toList = _
      rw [ih1, htl]
      simp
    · exact ih2

/-- Fresh ring as built by the constructor: zeroed indices, default slots. -/
def mkRing (α : Type) [Inhabited α] (size : ℕ) : RingBuffer α :=
  { size_ := size, buf := fun _ => default, readIndex := 0, writeIndex := 0 }

end RingBuffer

/-- Example ring: a fresh 3-slot buffer of naturals. -/
def ringEx : RingBuffer ℕ := RingBuffer.mkRing ℕ 3

/-- Claim C4: the ring buffer refines a bounded FIFO queue.  Under the
abstraction `toList`, `push` returns false exactly when the buffer is full,
`pop` reports empty exactly when the buffer is empty, a successful push
appends the pushed item at the tail, a successful pop delivers exactly the
head and removes it (so every accepted item is delivered exactly once, in
push order); pushing any list that fits into an empty buffer and then
draining delivers exactly that list. -/
theorem C4_ring_buffer_refines_fifo {α : Type} (r : RingBuffer α) (x : α)
    (h : r.WF) :
    ((r.push x).1 = false ↔ r.isFull = true) ∧
    (r.pop.1 = none ↔ r.isEmpty = true) ∧
    (r.isFull = true ↔ r.toList.length = r.capacity) ∧
    (r.isEmpty = true ↔ r.toList = []) ∧
    (r.isFull = false →
      (r.push x).1 = true ∧ (r.push x).2.toList = r.toList ++ [x] ∧
      (r.push x).2.WF) ∧
    (∀ z r', r.pop = (some z, r') → r.toList = z :: r'.toList ∧ r'.WF) ∧
    (∀ l : List α, r.isEmpty = true → l.length ≤ r.capacity →
      (r.pushAll l).drain = r.toList ++ l) := by
  refine ⟨RingBuffer.push_fst_iff r x, RingBuffer.pop_fst_iff r, ?_, ?_, ?_, ?_, ?_⟩
  · rw [RingBuffer.length_toList]
    exact RingBuffer.isFull_iff_used h
  · rw [RingBuffer.isEmpty_iff_used h, ← RingBuffer.length_toList,
      List.length_eq_zero]
  · intro hnf
    obtain ⟨a, -, c, d⟩ := RingBuffer.push_success h hnf
    exact ⟨a, c, d⟩
  · intro z r' hp
    have hne : r.isEmpty = false := by
      cases hb : r.isEmpty
      · rfl
      · exfalso
        have := (RingBuffer.pop_fst_iff r).2 hb
        rw [hp] at this
        simp at this
    obtain ⟨hpop, -, htl, hWF⟩ := RingBuffer.pop_success h hne
    have hpair := hp.symm.trans hpop
    have hz : z = r.buf r.readIndex := by
      have := congrArg Prod.fst hpair
      simpa using this
    have hsnd : r.pop.2 = r' := by rw [hp]
    constructor
    · rw [htl, hz, hsnd]
    · rw [hsnd] at hWF
      exact hWF
  · intro l hemp hlen
    have hu0 : r.used = 0 := (RingBuffer.isEmpty_iff_used h).1 hemp
    have hfit : r.used + l.length ≤ r.capacity := by omega
    have hp := RingBuffer.pushAll_toList h hfit
    rw [RingBuffer.drain_eq_toList hp.2, hp.1]

/-- Concrete instantiation of C4 at a fresh 3-slot buffer. -/
theorem C4_ring_buffer_refines_fifo_witness :
    (ringEx.push 5).1 = true ∧ (ringEx.push 5).2.toList = ringEx.toList ++ [5] := by
  have h := C4_ring_buffer_refines_fifo ringEx 5 ⟨by decide, by decide, by decide⟩
  exact ⟨(h.2.2.2.2.1 (by decide)).1, (h.2.2.2.2.1 (by decide)).2.1⟩

/-! ## Event dispatcher (execution/event_processor_impl.hpp) -/

/-- Outcome of `EventProcessorImpl::publish`.  The C++ function returns a
bool: `accepted` is `true`, `notRunning` and `pushFailed` are `false`.
When the buffer is full the source busy-waits — `while (buffer_.isFull())
std::this_thread::yield();` — and with the consumer making no progress that
loop never returns; we model that non-returning wait as the `blockedFull`
outcome.  `pushFailed` is the defensive `if (!buffer_.push(event))` branch
after the wait, unreachable once the buffer has space. -/
inductive PublishOutcome where
  | accepted
  | notRunning
  | blockedFull
  | pushFailed
deriving DecidableEq

/-- Dispatcher state: the running flag and the owned ring buffer. -/
structure EventProcessorImpl (α : Type) where
  running : Bool
  buffer : RingBuffer α

namespace EventProcessorImpl

variable {α : Type}

/-- Constructor `EventProcessorImpl(size_t bufferSize)`. -/
def mk' (α : Type) [Inhabited α] (bufferSize : ℕ) : EventProcessorImpl α :=
  { running := false, buffer := RingBuffer.mkRing α bufferSize }

/-- `void start()`: sets the running flag (and spawns the consumer). -/
def start (p : EventProcessorImpl α) : EventProcessorImpl α :=
  { p with running := true }

/-- `void stop()`: clears the running flag, notifies and joins. -/
def stop (p : EventProcessorImpl α) : EventProcessorImpl α :=
  { p with running := false }

/-- `bool publish(const Event&)` with the consumer paused: early-out when
not running; busy-wait (modelled as `blockedFull`) while the buffer is
full; otherwise push. -/
def publish (p : EventProcessorImpl α) (e : α) :
    PublishOutcome × EventProcessorImpl α :=
  if p.running = false then
    (.notRunning, p)
  else if p.buffer.isFull then
    (.blockedFull, p)
  else
    match p.buffer.push e with
    | (true, b') => (.accepted, { p with buffer := b' })
    | (false, _) => (.pushFailed, p)

/-- Publish a list of events in order, collecting the outcomes. -/
def publishSeq (p : EventProcessorImpl α) (l : List α) :
    List PublishOutcome × EventProcessorImpl α :=
  l.foldl (fun acc e =>
    let r := acc.2.publish e
    (acc.1 ++ [r.1], r.2)) ([], p)

end EventProcessorImpl

/-- A running dispatcher whose 2-slot buffer is full (write = read + 1). -/
def procFullEx : EventProcessorImpl ℕ :=
  { running := true,
    buffer := { size_ := 2, buf := fun _ => 0, readIndex := 0, writeIndex := 1 } }

/-- Counterexample to claim C6 as stated: with a full buffer and the
dispatcher running, `publish` does not return `Dropped(BufferFull)` (nor
any other immediate result) — it busy-waits for the consumer, modelled as
the `blockedFull` outcome. -/
theorem C6_publish_blocks_on_full_counterexample :
    (procFullEx.publish 7).1 = .blockedFull ∧
    (procFullEx.publish 7).1 ≠ .accepted ∧
    (procFullEx.publish 7).1 ≠ .notRunning ∧
    (procFullEx.publish 7).1 ≠ .pushFailed := by
  decide

/-- Claim C6 (amended): `publish` returns false (`NotRunning`) immediately
whenever the dispatcher is not running — in particular after `stop()` — and
accepts immediately when the buffer has space; but when the buffer is full
it busy-waits for the consumer instead of returning a `BufferFull` drop. -/
theorem C6_publish_results :
    ∀ (p : EventProcessorImpl ℕ) (e : ℕ),
    (p.running = false → p.publish e = (.notRunning, p)) ∧
    (p.running = true → p.buffer.isFull = true → p.publish e = (.blockedFull, p)) ∧
    (p.running = true → p.buffer.isFull = false → (p.publish e).1 = .accepted) ∧
    (p.stop.publish e = (.notRunning, p.stop)) := by
  intro p e
  refine ⟨?_, ?_, ?_, ?_⟩
  · intro hr
    simp [EventProcessorImpl.publish, hr]
  · intro hr hf
    simp [EventProcessorImpl.publish, hr, hf]
  · intro hr hf
    have hp : (p.buffer.push e).1 = true := by
      cases hb : (p.buffer.push e).1
      · exact absurd ((RingBuffer.push_fst_iff p.buffer e).1 hb) (by simp [hf])
      · rfl
    rcases hps : p.buffer.push e with ⟨fst, snd⟩
    rw [hps] at hp
    simp only at hp
    subst hp
    simp [EventProcessorImpl.publish, hr, hf, hps]
  · simp [EventProcessorImpl.publish, EventProcessorImpl.stop]

/-- Concrete instantiation of C6: a full running dispatcher blocks, a
stopped one returns `NotRunning`. -/
theorem C6_publish_results_witness :
    procFullEx.publish 7 = (.blockedFull, procFullEx) ∧
    procFullEx.stop.publish 7 = (.notRunning, procFullEx.stop) :=
  ⟨(C6_publish_results procFullEx 7).2.1 rfl (by decide),
   (C6_publish_results procFullEx 7).2.2.2⟩

/-- A started dispatcher with `bufferSize = 8`, as in the scenario of C5. -/
def dispatcherEx : EventProcessorImpl ℕ :=
  (EventProcessorImpl.mk' ℕ 8).start

/-- The nine events published in the C5 scenario. -/
def nineEvents : List ℕ := [1, 2, 3, 4, 5, 6, 7, 8, 9]

/-- Counterexample to claim C5 as stated: with a buffer constructed with
size 8, the 8th publish (index 7) is already not accepted — the ring keeps
one slot empty, so only 7 events fit — and instead of returning a
`BufferFull` drop the call busy-waits (`blockedFull`). -/
theorem C5_backpressure_counterexample :
    ((QuantEngine.EventProcessorImpl.publishSeq dispatcherEx nineEvents).1.getD 7
        .accepted = .blockedFull) ∧
    PublishOutcome.blockedFull ≠ PublishOutcome.accepted := by
  decide

/-- Claim C5 (amended): with a dispatcher buffer of size 8 and the consumer
paused, the first 7 publishes are accepted; the 8th and 9th find the
buffer full and busy-wait rather than returning a drop; once the consumer
resumes, the 7 buffered events are delivered in publication order. -/
theorem C5_backpressure_scenario :
    (EventProcessorImpl.publishSeq dispatcherEx nineEvents).1 =
      [.accepted, .accepted, .accepted, .accepted, .accepted, .accepted,
       .accepted, .blockedFull, .blockedFull] ∧
    (EventProcessorImpl.publishSeq dispatcherEx nineEvents).2.buffer.drain =
      [1, 2, 3, 4, 5, 6, 7] := by
  decide

/-! ## Subscriber map (subscribe/unsubscribe, event_processor_impl.hpp) -/

/-- Subscriber table: an ordered handler list per event type.  Handlers
(`std::function` values) are opaque tokens of type `η`. -/
def HandlerMap (η : Type) : Type := EventType → List η

/-- `void subscribe(EventType, EventHandler)`: appends the handler to the
list for its type (`handlers_[type].push_back(handler)`). -/
def subscribeHandler {η : Type} (m : HandlerMap η) (t : EventType) (h : η) :
    HandlerMap η :=
  fun t' => if t' = t then m t' ++ [h] else m t'

/-- `std::remove_if` + `erase`: drops every element the predicate accepts. -/
def removeIf {η : Type} (p : η → Bool) (l : List η) : List η :=
  l.filter (fun x => !(p x))

/-- `void unsubscribe(EventType, const std::string&)`: erases, from the
list of the given type, every handler for which the predicate returns
true.  The predicate in the source is the lambda that always returns true
(its body is the comment "In real implementation, compare handler IDs"),
so the whole list for that type is erased; the handler id is ignored. -/
def unsubscribeHandler {η : Type} (m : HandlerMap η) (t : EventType)
    (_handlerId : String) : HandlerMap η :=
  fun t' => if t' = t then removeIf (fun _ => true) (m t') else m t'

/-- A subscriber table with one pre-existing market-data handler (token 0). -/
def handlersEx : HandlerMap ℕ :=
  fun t => if t = EventType.marketData then [0] else []

/-- Claim C7 (code bug): subscribing handler 1 for MARKET_DATA and then
unsubscribing that subscription does not restore the table — the
always-true predicate in `unsubscribe` erases every MARKET_DATA handler,
including pre-existing handler 0. -/
theorem C7_subscribe_unsubscribe_not_roundtrip :
    unsubscribeHandler (subscribeHandler handlersEx .marketData 1) .marketData
      "sub1" EventType.marketData = [] ∧
    handlersEx EventType.marketData = [0] ∧
    ([] : List ℕ) ≠ [0] := by
  decide

/-! ## Association-list model of std::map<std::string, double>

First-match lookup; insertion replaces the value of an existing key and
otherwise appends, matching `map::operator[]` assignment (keys unique). -/

def alookup {β : Type} (l : List (String × β)) (k : String) : Option β :=
  match l with
  | [] => none
  | (a, b) :: t => if a = k then some b else alookup t k

def ainsert {β : Type} (l : List (String × β)) (k : String) (v : β) :
    List (String × β) :=
  match l with
  | [] => [(k, v)]
  | (a, b) :: t => if a = k then (k, v) :: t else (a, b) :: ainsert t k v

theorem alookup_ainsert_self {β : Type} (l : List (String × β)) (k : String)
    (v : β) : alookup (ainsert l k v) k = some v := by
  induction l with
  | nil => simp [ainsert, alookup]
  | cons p t ih =>
    obtain ⟨a, b⟩ := p
    by_cases h : a = k <;> simp [ainsert, alookup, h, ih]

theorem alookup_ainsert_ne {β : Type} (l : List (String × β)) (k k' : String)
    (v : β) (h : k' ≠ k) : alookup (ainsert l k v) k' = alookup l k' := by
  have hne : ¬k = k' := fun he => h he.symm
  induction l with
  | nil => simp [ainsert, alookup, hne]
  | cons p t ih =>
    obtain ⟨a, b⟩ := p
    by_cases ha : a = k
    · subst ha
      simp [ainsert, alookup, hne]
    · simp [ainsert, alookup, ha, ih]

/-! ## Risk engine (risk/risk_manager.hpp) -/

structure RiskLimits where
  maxOrderSize : ℚ
  maxPositionSize : ℚ
  maxLeverage : ℚ
  maxDrawdown : ℚ
  maxDailyLoss : ℚ
  symbolLimits : List (String × ℚ)
deriving DecidableEq

structure RiskManager where
  enabled : Bool
  limits : RiskLimits
  positions : List (String × ℚ)
  averagePrices : List (String × ℚ)
  currentBalance : ℚ
  peakBalance : ℚ
  dailyStartBalance : ℚ
  dailyLow : ℚ
deriving DecidableEq

namespace RiskManager

/-- `calculateNewPosition`: current mirror position plus the signed order
volume. -/
def calculateNewPosition (rm : RiskManager) (o : Order) : ℚ :=
  let currentPosition := (alookup rm.positions o.symbol).getD 0
  if o.side = OrderSide.buy then currentPosition + o.volume
  else currentPosition - o.volume

/-- `calculateLeverage`: gross value of mirrored positions (at stored
average prices) plus the new order's signed `volume * price`, divided by
the current balance.  (ℚ division by zero yields 0; the concrete states
used in the theorems below all have a positive balance, where the model
agrees exactly with the C++ double computation.) -/
def calculateLeverage (rm : RiskManager) (o : Order) : ℚ :=
  let totalPositionValue := rm.positions.foldl (fun acc sv =>
    match alookup rm.averagePrices sv.1 with
    | some p => acc + |sv.2 * p|
    | none => acc) 0
  (totalPositionValue + o.volume * o.price) / rm.currentBalance

/-- `calculateDrawdown`: fractional decline from peak balance. -/
def calculateDrawdown (rm : RiskManager) : ℚ :=
  if rm.peakBalance ≤ 0 then 0
  else (rm.peakBalance - rm.currentBalance) / rm.peakBalance

/-- `calculateDailyLoss`. -/
def calculateDailyLoss (rm : RiskManager) : ℚ :=
  rm.dailyStartBalance - rm.currentBalance

/-- The symbol-cap test of `checkOrderRisk`: fails only when a limit for
the order's symbol exists and the order volume exceeds it. -/
def symbolCapExceeded (rm : RiskManager) (o : Order) : Bool :=
  match alookup rm.limits.symbolLimits o.symbol with
  | some lim => decide (o.volume > lim)
  | none => false

/-- `bool checkOrderRisk(const Order&)`: early true when disabled, then
the six checks in source order, each an early false. -/
def checkOrderRisk (rm : RiskManager) (o : Order) : Bool :=
  if rm.enabled = false then true
  else if o.volume * o.price > rm.limits.maxOrderSize then false
  else if symbolCapExceeded rm o then false
  else if |calculateNewPosition rm o| > rm.limits.maxPositionSize then false
  else if calculateLeverage rm o > rm.limits.maxLeverage then false
  else if calculateDrawdown rm > rm.limits.maxDrawdown then false
  else if calculateDailyLoss rm > rm.limits.maxDailyLoss then false
  else true

/-- Which early-return branch of `checkOrderRisk` fired; the branches are
observable in the source through their distinct LOG_WARNING messages. -/
inductive RiskReject where
  | orderNotional
  | symbolCap
  | positionNotional
  | leverage
  | drawdown
  | dailyLoss
deriving DecidableEq

/-- `checkOrderRisk` instrumented with the identity of the failing branch. -/
def checkOrderRiskReason (rm : RiskManager) (o : Order) : Option RiskReject :=
  if rm.enabled = false then none
  else if o.volume * o.price > rm.limits.maxOrderSize then some .orderNotional
  else if symbolCapExceeded rm o then some .symbolCap
  else if |calculateNewPosition rm o| > rm.limits.maxPositionSize then
    some .positionNotional
  else if calculateLeverage rm o > rm.limits.maxLeverage then some .leverage
  else if calculateDrawdown rm > rm.limits.maxDrawdown then some .drawdown
  else if calculateDailyLoss rm > rm.limits.maxDailyLoss then some .dailyLoss
  else none

/-- `void updatePosition(symbol, volume, price)`: plain overwrite of the
mirrored position and average price for the symbol. -/
def updatePosition (rm : RiskManager) (symbol : String) (volume price : ℚ) :
    RiskManager :=
  { rm with
    positions := ainsert rm.positions symbol volume,
    averagePrices := ainsert rm.averagePrices symbol price }

/-- `void updateBalance(double)`. -/
def updateBalance (rm : RiskManager) (balance : ℚ) : RiskManager :=
  { rm with
    currentBalance := balance,
    peakBalance := if balance > rm.peakBalance then balance else rm.peakBalance }

/-- `void resetDailyMetrics()`. -/
def resetDailyMetrics (rm : RiskManager) : RiskManager :=
  { rm with
    dailyStartBalance := rm.currentBalance,
    dailyLow := rm.currentBalance }

/-- `void enable()`. -/
def enable (rm : RiskManager) : RiskManager := { rm with enabled := true }

/-- `void disable()`. -/
def disable (rm : RiskManager) : RiskManager := { rm with enabled := false }

theorem checkOrderRisk_eq_reason (rm : RiskManager) (o : Order) :
    checkOrderRisk rm o = (checkOrderRiskReason rm o).isNone := by
  unfold checkOrderRisk checkOrderRiskReason
  split_ifs <;> rfl

/-- Replay a list of `(symbol, volume, price)` fills through
`updatePosition`, as the execution engine's trade-update handler does. -/
def applyFills (rm : RiskManager) (fills : List (String × ℚ × ℚ)) :
    RiskManager :=
  fills.foldl (fun rm f => rm.updatePosition f.1 f.2.1 f.2.2) rm

/-- The volume/price pair of the last fill for a symbol, if any. -/
def lastUpdateFor (fills : List (String × ℚ × ℚ)) (s : String) :
    Option (ℚ × ℚ) :=
  match fills with
  | [] => none
  | f :: t =>
    match lastUpdateFor t s with
    | some vp => some vp
    | none => if f.1 = s then some f.2 else none

end RiskManager

theorem applyFills_last (s : String) :
    ∀ (fills : List (String × ℚ × ℚ)) (rm : RiskManager),
    alookup (RiskManager.applyFills rm fills).positions s =
      (RiskManager.lastUpdateFor fills s).elim (alookup rm.positions s)
        (fun vp => some vp.1) := by
  intro fills
  induction fills with
  | nil => intro rm; rfl
  | cons f t ih =>
    intro rm
    have hstep : RiskManager.applyFills rm (f :: t) =
        RiskManager.applyFills (rm.updatePosition f.1 f.2.1 f.2.2) t := rfl
    rw [hstep, ih]
    cases hl : RiskManager.lastUpdateFor t s with
    | some vp => simp [RiskManager.lastUpdateFor, hl]
    | none =>
      by_cases hf : f.1 = s
      · simp [RiskManager.lastUpdateFor, hl, hf, RiskManager.updatePosition,
          hf ▸ alookup_ainsert_self rm.positions f.1 f.2.1]
      · simp [RiskManager.lastUpdateFor, hl, hf, RiskManager.updatePosition,
          alookup_ainsert_ne rm.positions f.1 s f.2.1 (fun he => hf he.symm)]

/-- Claim C10: `updatePosition` on the risk engine overwrites (does not
accumulate) the stored position volume and average price for the given
symbol, leaves every other symbol, the balances and the peak-equity state
unchanged; after a sequence of fills, the stored position for a symbol is
exactly the volume argument of the last fill for it. -/
theorem C10_updatePosition_overwrites (rm : RiskManager) (s : String)
    (v p : ℚ) :
    alookup (rm.updatePosition s v p).positions s = some v ∧
    alookup (rm.updatePosition s v p).averagePrices s = some p ∧
    (∀ s', s' ≠ s →
      alookup (rm.updatePosition s v p).positions s' = alookup rm.positions s' ∧
      alookup (rm.updatePosition s v p).averagePrices s' =
        alookup rm.averagePrices s') ∧
    (rm.updatePosition s v p).currentBalance = rm.currentBalance ∧
    (rm.updatePosition s v p).peakBalance = rm.peakBalance ∧
    (rm.updatePosition s v p).dailyStartBalance = rm.dailyStartBalance ∧
    (rm.updatePosition s v p).dailyLow = rm.dailyLow ∧
    (rm.updatePosition s v p).limits = rm.limits ∧
    (rm.updatePosition s v p).enabled = rm.enabled ∧
    (∀ fills : List (String × ℚ × ℚ),
      alookup (RiskManager.applyFills rm fills).positions s =
        (RiskManager.lastUpdateFor fills s).elim (alookup rm.positions s)
          (fun vp => some vp.1)) := by
  refine ⟨alookup_ainsert_self _ _ _, alookup_ainsert_self _ _ _, ?_,
    rfl, rfl, rfl, rfl, rfl, rfl, fun fills => applyFills_last s fills rm⟩
  intro s' hs
  exact ⟨alookup_ainsert_ne _ _ _ _ hs, alookup_ainsert_ne _ _ _ _ hs⟩

/-- A risk state with one pre-existing ETH position. -/
def rmBase : RiskManager :=
  { enabled := true,
    limits := { maxOrderSize := 100000, maxPositionSize := 1000000,
                maxLeverage := 3, maxDrawdown := 1/10, maxDailyLoss := 10000,
                symbolLimits := [] },
    positions := [("ETH", 2)], averagePrices := [("ETH", 1500)],
    currentBalance := 100000, peakBalance := 100000,
    dailyStartBalance := 100000, dailyLow := 100000 }

/-- Concrete instantiation of C10: overwrite BTC, ETH untouched. -/
theorem C10_updatePosition_overwrites_witness :
    alookup (rmBase.updatePosition "BTC" 5 100).positions "BTC" = some 5 ∧
    alookup (rmBase.updatePosition "BTC" 5 100).positions "ETH" =
      alookup rmBase.positions "ETH" :=
  ⟨(C10_updatePosition_overwrites rmBase "BTC" 5 100).1,
   ((C10_updatePosition_overwrites rmBase "BTC" 5 100).2.2.1 "ETH"
      (by decide)).1⟩

/-- Risk state for the C2 counterexample: enabled engine, generous
non-notional limits, positive balances at their peak. -/
def rmNegPrice : RiskManager :=
  { enabled := true,
    limits := { maxOrderSize := 100, maxPositionSize := 10, maxLeverage := 3,
                maxDrawdown := 1/10, maxDailyLoss := 1000, symbolLimits := [] },
    positions := [], averagePrices := [],
    currentBalance := 1000, peakBalance := 1000,
    dailyStartBalance := 1000, dailyLow := 1000 }

/-- A limit order with a negative price: its absolute notional 200 exceeds
the max order notional 100, but the signed product is -200. -/
def orderNegPrice : Order :=
  { symbol := "BTC", type := OrderType.limit, side := OrderSide.buy,
    price := -200, volume := 1, clientOrderId := "c1" }

/-- Counterexample to claim C2 as stated: check 1 in the source compares
the signed product `order.volume * order.price` against the limit, not the
absolute notional `|volume * reference_price|`, so an order whose absolute
notional exceeds `max_order_notional` is admitted. -/
theorem C2_signed_notional_counterexample :
    RiskManager.checkOrderRisk rmNegPrice orderNegPrice = true ∧
    ¬(|orderNegPrice.volume * orderNegPrice.price| ≤
        rmNegPrice.limits.maxOrderSize) := by
  constructor
  · norm_num [RiskManager.checkOrderRisk, RiskManager.symbolCapExceeded,
      RiskManager.calculateNewPosition, RiskManager.calculateLeverage,
      RiskManager.calculateDrawdown, RiskManager.calculateDailyLoss,
      rmNegPrice, orderNegPrice, alookup]
  · norm_num [rmNegPrice, orderNegPrice]

/-- Claim C2 (amended): when the engine is enabled, `checkOrderRisk`
applies the six checks in the listed order and the first failing check is
the rejection reason (observable through the logged warning) — with check 1
comparing the signed product `volume * price` of the order's own price,
without absolute value or an external reference price; when disabled,
every order is admitted while position, balance and daily tracking behave
exactly as when enabled. -/
theorem C2_admit_first_failure (rm : RiskManager) (o : Order) :
    (rm.enabled = true →
      ((RiskManager.checkOrderRiskReason rm o = some .orderNotional ↔
          o.volume * o.price > rm.limits.maxOrderSize) ∧
       (RiskManager.checkOrderRiskReason rm o = some .symbolCap ↔
          ¬(o.volume * o.price > rm.limits.maxOrderSize) ∧
          RiskManager.symbolCapExceeded rm o = true) ∧
       (RiskManager.checkOrderRiskReason rm o = some .positionNotional ↔
          ¬(o.volume * o.price > rm.limits.maxOrderSize) ∧
          ¬(RiskManager.symbolCapExceeded rm o = true) ∧
          |RiskManager.calculateNewPosition rm o| > rm.limits.maxPositionSize) ∧
       (RiskManager.checkOrderRiskReason rm o = some .leverage ↔
          ¬(o.volume * o.price > rm.limits.maxOrderSize) ∧
          ¬(RiskManager.symbolCapExceeded rm o = true) ∧
          ¬(|RiskManager.calculateNewPosition rm o| > rm.limits.maxPositionSize) ∧
          RiskManager.calculateLeverage rm o > rm.limits.maxLeverage) ∧
       (RiskManager.checkOrderRiskReason rm o = some .drawdown ↔
          ¬(o.volume * o.price > rm.limits.maxOrderSize) ∧
          ¬(RiskManager.symbolCapExceeded rm o = true) ∧
          ¬(|RiskManager.calculateNewPosition rm o| > rm.limits.maxPositionSize) ∧
          ¬(RiskManager.calculateLeverage rm o > rm.limits.maxLeverage) ∧
          RiskManager.calculateDrawdown rm > rm.limits.maxDrawdown) ∧
       (RiskManager.checkOrderRiskReason rm o = some .dailyLoss ↔
          ¬(o.volume * o.price > rm.limits.maxOrderSize) ∧
          ¬(RiskManager.symbolCapExceeded rm o = true) ∧
          ¬(|RiskManager.calculateNewPosition rm o| > rm.limits.maxPositionSize) ∧
          ¬(RiskManager.calculateLeverage rm o > rm.limits.maxLeverage) ∧
          ¬(RiskManager.calculateDrawdown rm > rm.limits.maxDrawdown) ∧
          RiskManager.calculateDailyLoss rm > rm.limits.maxDailyLoss) ∧
       (RiskManager.checkOrderRisk rm o = true ↔
          RiskManager.checkOrderRiskReason rm o = none))) ∧
    (rm.enabled = false → RiskManager.checkOrderRisk rm o = true) ∧
    (∀ s v p, RiskManager.updatePosition (RiskManager.disable rm) s v p =
        RiskManager.disable (RiskManager.updatePosition rm s v p)) ∧
    (∀ b, RiskManager.updateBalance (RiskManager.disable rm) b =
        RiskManager.disable (RiskManager.updateBalance rm b)) ∧
    (RiskManager.resetDailyMetrics (RiskManager.disable rm) =
        RiskManager.disable (RiskManager.resetDailyMetrics rm)) := by
  refine ⟨?_, ?_, fun s v p => rfl, fun b => rfl, rfl⟩
  · intro hr
    simp only [RiskManager.checkOrderRisk_eq_reason,
      RiskManager.checkOrderRiskReason, hr]
    split_ifs <;> simp_all
  · intro hr
    simp [RiskManager.checkOrderRisk, hr]

/-- Concrete instantiation of C2 (amended): the counterexample order is
admitted because no check in the source's order fails on it. -/
theorem C2_admit_first_failure_witness :
    RiskManager.checkOrderRisk rmNegPrice orderNegPrice = true :=
  ((C2_admit_first_failure rmNegPrice orderNegPrice).1 rfl).2.2.2.2.2.2.mpr
    (by norm_num [RiskManager.checkOrderRiskReason,
      RiskManager.symbolCapExceeded, RiskManager.calculateNewPosition,
      RiskManager.calculateLeverage, RiskManager.calculateDrawdown,
      RiskManager.calculateDailyLoss, rmNegPrice, orderNegPrice, alookup])

/-! ## Order router (execution/order_router.hpp) -/

/-- Failure modes of `OrderRouter::submitOrder`: unknown exchange and risk
rejection are thrown as `runtime_error`; an adapter exception is caught,
logged and rethrown. -/
inductive SubmitError where
  | exchangeNotFound
  | riskRejected
  | exchangeError (msg : String)
deriving DecidableEq

/-- Router indices: `orderBook_ : map<OrderId, Order>` and
`activeOrdersByExchange_ : map<string, set<OrderId>>`. -/
structure OrderRouter where
  orderBook : List (String × Order)
  activeOrdersByExchange : List (String × List String)
deriving DecidableEq

namespace OrderRouter

/-- `std::set<OrderId>::insert` under `map::operator[]`: create the set on
first use, ignore duplicates. -/
def addActive (l : List (String × List String)) (ex oid : String) :
    List (String × List String) :=
  match l with
  | [] => [(ex, [oid])]
  | (a, s) :: t =>
    if a = ex then (a, if oid ∈ s then s else s ++ [oid]) :: t
    else (a, s) :: addActive t ex oid

/-- The active-order set recorded for an exchange. -/
def activeSet (l : List (String × List String)) (ex : String) : List String :=
  match l with
  | [] => []
  | (a, s) :: t => if a = ex then s else activeSet t ex

/-- `void recordOrder(orderId, order, exchangeName)`. -/
def recordOrder (rt : OrderRouter) (oid : String) (o : Order) (ex : String) :
    OrderRouter :=
  { orderBook := ainsert rt.orderBook oid o,
    activeOrdersByExchange := addActive rt.activeOrdersByExchange ex oid }

/-- `OrderId submitOrder(const Order&, const std::string&)`: look up the
exchange; throw if missing; risk-check; throw if rejected; submit through
the adapter; on success record the order, on adapter exception rethrow
without recording.  Adapters are modelled as functions of type
`Order → Except String String` returning the venue OrderId or throwing a
message; the returned router state is unchanged on every error path. -/
def submitOrder (exchanges : String → Option (Order → Except String String))
    (rm : RiskManager) (rt : OrderRouter) (o : Order) (name : String) :
    Except SubmitError String × OrderRouter :=
  match exchanges name with
  | none => (.error .exchangeNotFound, rt)
  | some ex =>
    if RiskManager.checkOrderRisk rm o = false then
      (.error .riskRejected, rt)
    else
      match ex o with
      | .ok oid => (.ok oid, recordOrder rt oid o name)
      | .error e => (.error (.exchangeError e), rt)

theorem mem_activeSet_addActive (l : List (String × List String))
    (ex oid : String) : oid ∈ activeSet (addActive l ex oid) ex := by
  induction l with
  | nil => simp [addActive, activeSet]
  | cons p t ih =>
    obtain ⟨a, s⟩ := p
    by_cases ha : a = ex
    · subst ha
      by_cases hm : oid ∈ s <;> simp [addActive, activeSet, hm]
    · simpa [addActive, activeSet, ha] using ih

end OrderRouter

/-- Claim C1: `submitOrder` consults the risk engine before the adapter;
a risk rejection fails the call with the risk error and is independent of
the adapter (the adapter's submit is never invoked); on adapter success
the order is recorded in the order book and in the venue's active set; on
an adapter exception the error propagates and the router state — hence the
active-order index — is unchanged. -/
theorem C1_submitOrder_risk_gate
    (exchanges : String → Option (Order → Except String String))
    (f : Order → Except String String) (rm : RiskManager) (rt : OrderRouter)
    (o : Order) (name : String) (hex : exchanges name = some f) :
    (RiskManager.checkOrderRisk rm o = false →
      OrderRouter.submitOrder exchanges rm rt o name =
        (.error .riskRejected, rt) ∧
      (∀ g : Order → Except String String,
        OrderRouter.submitOrder (fun v => if v = name then some g else exchanges v)
          rm rt o name = (.error .riskRejected, rt))) ∧
    (∀ oid, RiskManager.checkOrderRisk rm o = true → f o = .ok oid →
      OrderRouter.submitOrder exchanges rm rt o name =
        (.ok oid, OrderRouter.recordOrder rt oid o name) ∧
      alookup (OrderRouter.recordOrder rt oid o name).orderBook oid = some o ∧
      oid ∈ OrderRouter.activeSet
        (OrderRouter.recordOrder rt oid o name).activeOrdersByExchange name) ∧
    (∀ msg, RiskManager.checkOrderRisk rm o = true → f o = .error msg →
      OrderRouter.submitOrder exchanges rm rt o name =
        (.error (.exchangeError msg), rt)) := by
  refine ⟨?_, ?_, ?_⟩
  · intro hrisk
    constructor
    · simp [OrderRouter.submitOrder, hex, hrisk]
    · intro g
      simp [OrderRouter.submitOrder, hrisk]
  · intro oid hrisk hok
    refine ⟨?_, alookup_ainsert_self _ _ _,
      OrderRouter.mem_activeSet_addActive _ _ _⟩
    simp [OrderRouter.submitOrder, hex, hrisk, hok]
  · intro msg hrisk herr
    simp [OrderRouter.submitOrder, hex, hrisk, herr]

/-- An empty router. -/
def routerEx : OrderRouter := { orderBook := [], activeOrdersByExchange := [] }

/-- One registered exchange whose adapter accepts everything with id OID-1. -/
def exchangesEx : String → Option (Order → Except String String) :=
  fun v => if v = "binance" then some (fun _ => .ok "OID-1") else none

/-- The admission-happy-path order: BTC BUY LIMIT 50000 x 0.1. -/
def orderOk : Order :=
  { symbol := "BTC", type := OrderType.limit, side := OrderSide.buy,
    price := 50000, volume := 1/10, clientOrderId := "c2" }

/-- Concrete instantiation of C1: the happy-path order passes risk, is
submitted, and is recorded under its venue. -/
theorem C1_submitOrder_risk_gate_witness :
    OrderRouter.submitOrder exchangesEx rmBase routerEx orderOk "binance" =
      (.ok "OID-1", OrderRouter.recordOrder routerEx "OID-1" orderOk "binance") :=
  ((C1_submitOrder_risk_gate exchangesEx (fun _ => .ok "OID-1") rmBase routerEx
      orderOk "binance" (by simp [exchangesEx])).2.1 "OID-1"
    (by norm_num [RiskManager.checkOrderRisk, RiskManager.symbolCapExceeded,
      RiskManager.calculateNewPosition, RiskManager.calculateLeverage,
      RiskManager.calculateDrawdown, RiskManager.calculateDailyLoss,
      rmBase, orderOk, alookup, abs_le,
      show ¬"ETH" = "BTC" from by decide]) rfl).1

/-! ## Strategy base class (include/algorithm/base_strategy.hpp) -/

namespace BaseStrategy

/-- The body of `void updatePosition(const TradeUpdate&)` applied to one
position entry: add the signed fill volume, then recompute the average
price from the NEW volume —
`avg = (avg * (volume - update.volume) + price * update.volume) / volume`
where `volume` is already updated — or reset it to 0 when the position
returns to zero.  Unrealized/realized PnL fields are not touched. -/
def updatePosition (pos : Position) (u : TradeUpdate) : Position :=
  let v' := if u.side = OrderSide.buy then pos.volume + u.volume
            else pos.volume - u.volume
  { pos with
    symbol := u.symbol,
    volume := v',
    averagePrice :=
      if v' ≠ 0 then
        (pos.averagePrice * (v' - u.volume) + u.price * u.volume) / v'
      else 0 }

/-- `positions_[update.symbol]` default-constructs a zeroed Position on
first access; then `updatePosition` mutates it in place. -/
def updatePositionMap (m : List (String × Position)) (u : TradeUpdate) :
    List (String × Position) :=
  let pos := (alookup m u.symbol).getD
    { symbol := "", volume := 0, averagePrice := 0,
      unrealizedPnl := 0, realizedPnl := 0 }
  ainsert m u.symbol (updatePosition pos u)

/-- Fold a sequence of fills through the per-position update. -/
def applyTrades (pos : Position) (fills : List TradeUpdate) : Position :=
  fills.foldl updatePosition pos

/-- The signed volume a fill contributes to the position. -/
def signedVolume (u : TradeUpdate) : ℚ :=
  if u.side = OrderSide.buy then u.volume else -u.volume

theorem updatePosition_volume (pos : Position) (u : TradeUpdate) :
    (updatePosition pos u).volume = pos.volume + signedVolume u := by
  unfold updatePosition signedVolume
  by_cases h : u.side = OrderSide.buy
  · simp [h]
  · simp [h]
    ring

theorem applyTrades_volume (fills : List TradeUpdate) :
    ∀ pos : Position, (applyTrades pos fills).volume =
      pos.volume + (fills.map signedVolume).sum := by
  induction fills with
  | nil => intro pos; simp [applyTrades]
  | cons u t ih =>
    intro pos
    have hstep : applyTrades pos (u :: t) = applyTrades (updatePosition pos u) t := rfl
    rw [hstep, ih, updatePosition_volume]
    simp [add_assoc]

/-- Strategy state as seen by the base-class callbacks: the status flag,
the position book, and the derived class's own state `σ` on which the pure
`process*` hooks act. -/
structure State (σ : Type) where
  status : StrategyStatus
  positions : List (String × Position)
  hookState : σ

/-- `void onMarketData(const MarketData&)`: early-out unless RUNNING. -/
def onMarketData {σ : Type} (processMarketData : MarketData → σ → σ)
    (st : State σ) (d : MarketData) : State σ :=
  if st.status ≠ StrategyStatus.running then st
  else { st with hookState := processMarketData d st.hookState }

/-- `void onOrderUpdate(const OrderUpdate&)`: early-out unless RUNNING. -/
def onOrderUpdate {σ : Type} (processOrderUpdate : OrderUpdate → σ → σ)
    (st : State σ) (u : OrderUpdate) : State σ :=
  if st.status ≠ StrategyStatus.running then st
  else { st with hookState := processOrderUpdate u st.hookState }

/-- `void onTradeUpdate(const TradeUpdate&)`: early-out unless RUNNING;
otherwise run the hook and then the position bookkeeping. -/
def onTradeUpdate {σ : Type} (processTradeUpdate : TradeUpdate → σ → σ)
    (st : State σ) (u : TradeUpdate) : State σ :=
  if st.status ≠ StrategyStatus.running then st
  else { st with
    hookState := processTradeUpdate u st.hookState,
    positions := updatePositionMap st.positions u }

end BaseStrategy

/-- A flat BTC position. -/
def flatBTC : Position :=
  { symbol := "BTC", volume := 0, averagePrice := 0,
    unrealizedPnl := 0, realizedPnl := 0 }

/-- BUY 0.1 BTC at 50000. -/
def buyFill1 : TradeUpdate :=
  { orderId := "ord1", symbol := "BTC", price := 50000, volume := 1/10,
    side := OrderSide.buy }

/-- BUY 0.1 BTC at 51000. -/
def buyFill2 : TradeUpdate :=
  { orderId := "ord2", symbol := "BTC", price := 51000, volume := 1/10,
    side := OrderSide.buy }

/-- A long 0.2 BTC position with average price 50500. -/
def posLong : Position :=
  { symbol := "BTC", volume := 1/5, averagePrice := 50500,
    unrealizedPnl := 0, realizedPnl := 0 }

/-- SELL 0.1 BTC at 60000: a reducing fill. -/
def sellReduce : TradeUpdate :=
  { orderId := "ord3", symbol := "BTC", price := 60000, volume := 1/10,
    side := OrderSide.sell }

/-- Counterexample to claim C3 as stated: a reducing fill does NOT
preserve the average price — selling 0.1 of a 0.2-position entered at
50500 sets the average to the fill price 60000, because the source formula
uses the already-updated volume on both sides. -/
theorem C3_reducing_fill_counterexample :
    (BaseStrategy.updatePosition posLong sellReduce).averagePrice = 60000 ∧
    (60000 : ℚ) ≠ 50500 := by
  constructor
  · norm_num [BaseStrategy.updatePosition, posLong, sellReduce,
      show ¬(OrderSide.sell = OrderSide.buy) from by decide]
  · norm_num

/-- Claim C3 (amended): position volume is the sum of signed fill volumes;
the average price follows the source formula
`avg = (avg * (v - q) + px * q) / v` with `v` the updated volume — which
agrees with the stated same-side rule for a BUY onto a non-negative
position, but rescales the average on reducing fills (instead of
preserving it) and does not set it to the fill price on side flips — and
resets to 0 when the position returns flat; the concrete BUY 0.1@50000
then BUY 0.1@51000 scenario yields volume 0.2 and average 50500. -/
theorem C3_position_bookkeeping (pos0 : Position) (fills : List TradeUpdate) :
    ((BaseStrategy.applyTrades pos0 fills).volume =
      pos0.volume + (fills.map BaseStrategy.signedVolume).sum) ∧
    (∀ (pos : Position) (u : TradeUpdate),
      (BaseStrategy.updatePosition pos u).volume =
        pos.volume + BaseStrategy.signedVolume u) ∧
    (∀ (pos : Position) (u : TradeUpdate), u.side = OrderSide.buy →
      0 ≤ pos.volume → pos.volume + u.volume ≠ 0 →
      (BaseStrategy.updatePosition pos u).averagePrice =
        (pos.averagePrice * |pos.volume| + u.price * u.volume) /
          (|pos.volume| + u.volume)) ∧
    (∀ (pos : Position) (u : TradeUpdate),
      (if u.side = OrderSide.buy then pos.volume + u.volume
       else pos.volume - u.volume) ≠ 0 →
      (BaseStrategy.updatePosition pos u).averagePrice =
        (pos.averagePrice * ((BaseStrategy.updatePosition pos u).volume - u.volume)
          + u.price * u.volume) / (BaseStrategy.updatePosition pos u).volume) ∧
    BaseStrategy.applyTrades flatBTC [buyFill1, buyFill2] =
      { symbol := "BTC", volume := 1/5, averagePrice := 50500,
        unrealizedPnl := 0, realizedPnl := 0 } := by
  refine ⟨BaseStrategy.applyTrades_volume fills pos0,
    BaseStrategy.updatePosition_volume, ?_, ?_, ?_⟩
  · intro pos u hside hnn hnz
    rw [abs_of_nonneg hnn]
    simp [BaseStrategy.updatePosition, hside, hnz]
  · intro pos u hnz
    simp only [BaseStrategy.updatePosition]
    simp [hnz]
  · show BaseStrategy.updatePosition (BaseStrategy.updatePosition flatBTC buyFill1) buyFill2 = _
    norm_num [BaseStrategy.updatePosition, flatBTC, buyFill1, buyFill2]

/-- Concrete instantiation of C3 at a same-side BUY onto a flat position:
the stated same-side averaging formula applies. -/
theorem C3_position_bookkeeping_witness :
    (BaseStrategy.updatePosition flatBTC buyFill1).averagePrice =
      (flatBTC.averagePrice * |flatBTC.volume| + buyFill1.price * buyFill1.volume) /
        (|flatBTC.volume| + buyFill1.volume) :=
  (C3_position_bookkeeping flatBTC []).2.2.1 flatBTC buyFill1 rfl
    (by norm_num [flatBTC]) (by norm_num [flatBTC, buyFill1])

/-- Market data tick used in concrete strategy-state scenarios. -/
def mdEx : MarketData :=
  { symbol := "BTC", lastPrice := 50000, bestBid := 49990, bestAsk := 50010,
    bidVolume := 1, askVolume := 1 }

/-- Order update used in concrete strategy-state scenarios. -/
def ouEx : OrderUpdate :=
  { orderId := "ord1", status := OrderStatus.filled, filledPrice := 50000,
    filledVolume := 1/10, message := "" }

/-- A stopped strategy state with hook-state counter 0. -/
def stoppedState : BaseStrategy.State ℕ :=
  { status := StrategyStatus.stopped, positions := [], hookState := 0 }

/-- Claim C8: the `on*` callbacks run the processing hooks and the
position bookkeeping only while the strategy status is RUNNING; in any
other status the callback returns with the state unchanged. -/
theorem C8_callbacks_only_when_running {σ : Type}
    (hmd : MarketData → σ → σ) (hou : OrderUpdate → σ → σ)
    (htu : TradeUpdate → σ → σ) (st : BaseStrategy.State σ)
    (d : MarketData) (ou : OrderUpdate) (u : TradeUpdate) :
    (st.status ≠ StrategyStatus.running →
      BaseStrategy.onMarketData hmd st d = st ∧
      BaseStrategy.onOrderUpdate hou st ou = st ∧
      BaseStrategy.onTradeUpdate htu st u = st) ∧
    (st.status = StrategyStatus.running →
      BaseStrategy.onMarketData hmd st d =
        { st with hookState := hmd d st.hookState } ∧
      BaseStrategy.onOrderUpdate hou st ou =
        { st with hookState := hou ou st.hookState } ∧
      BaseStrategy.onTradeUpdate htu st u =
        { st with hookState := htu u st.hookState,
                  positions := BaseStrategy.updatePositionMap st.positions u }) := by
  constructor
  · intro h
    exact ⟨by simp [BaseStrategy.onMarketData, h],
      by simp [BaseStrategy.onOrderUpdate, h],
      by simp [BaseStrategy.onTradeUpdate, h]⟩
  · intro h
    exact ⟨by simp [BaseStrategy.onMarketData, h],
      by simp [BaseStrategy.onOrderUpdate, h],
      by simp [BaseStrategy.onTradeUpdate, h]⟩

/-- Concrete instantiation of C8: a stopped strategy ignores callbacks. -/
theorem C8_callbacks_only_when_running_witness :
    BaseStrategy.onMarketData (fun _ n => n + 1) stoppedState mdEx = stoppedState ∧
    BaseStrategy.onTradeUpdate (fun _ n => n + 1) stoppedState buyFill1 = stoppedState :=
  ⟨((C8_callbacks_only_when_running (fun _ n => n + 1) (fun _ n => n + 1)
      (fun _ n => n + 1) stoppedState mdEx ouEx buyFill1).1 (by decide)).1,
   ((C8_callbacks_only_when_running (fun _ n => n + 1) (fun _ n => n + 1)
      (fun _ n => n + 1) stoppedState mdEx ouEx buyFill1).1 (by decide)).2.2⟩

/-! ## Statistical arbitrage strategy (StatArbitrage) -/

structure StatArbitrageConfig where
  lookbackPeriod : ℕ
  entryZScore : ℚ
  exitZScore : ℚ
  positionSize : ℚ
  maxPositionSize : ℚ
  minObservations : ℕ
  corrThreshold : ℚ
  maxSpreadValue : ℚ
  stopLossZScore : ℚ
deriving DecidableEq

structure PairState where
  spreadHistory : List ℚ
  meanSpread : ℚ
  stdSpread : ℚ
  currentSpread : ℚ
  correlation : ℚ
  beta : ℚ
  position1 : ℚ
  position2 : ℚ
  entrySpread : ℚ
deriving DecidableEq

namespace StatArbitrage

/-- One leg order as emitted by enter/exit: the source only sets side and
volume on the default-constructed `Order` before submitting. -/
structure LegOrder where
  side : OrderSide
  volume : ℚ
deriving DecidableEq

/-- Value-initialized `PairState` produced by `pairStates_[pairId]`. -/
def defaultPairState : PairState :=
  { spreadHistory := [], meanSpread := 0, stdSpread := 0, currentSpread := 0,
    correlation := 0, beta := 0, position1 := 0, position2 := 0,
    entrySpread := 0 }

/-- `pairStates_[pairId]` read access. -/
def findState (states : List (String × PairState)) (pid : String) : PairState :=
  (alookup states pid).getD defaultPairState

/-- `bool hasEnoughData(const PairState&)`. -/
def hasEnoughData (cfg : StatArbitrageConfig) (st : PairState) : Prop :=
  cfg.minObservations ≤ st.spreadHistory.length

instance (cfg : StatArbitrageConfig) (st : PairState) :
    Decidable (hasEnoughData cfg st) :=
  inferInstanceAs (Decidable (cfg.minObservations ≤ st.spreadHistory.length))

/-- `bool onCheckRiskLimits()`: true iff no pair's leg position exceeds the
per-pair maximum. -/
def checkRiskLimits (cfg : StatArbitrageConfig)
    (states : List (String × PairState)) : Prop :=
  ∀ p ∈ states, |p.2.position1| ≤ cfg.maxPositionSize ∧
    |p.2.position2| ≤ cfg.maxPositionSize

instance (cfg : StatArbitrageConfig) (states : List (String × PairState)) :
    Decidable (checkRiskLimits cfg states) := by
  unfold checkRiskLimits
  infer_instance

/-- `double calculatePositionSize(pairId)`: base size, scaled by
`1.0 / stdSpread` when the spread stdev is positive, capped at the max. -/
def calculatePositionSize (cfg : StatArbitrageConfig) (st : PairState) : ℚ :=
  min (if st.stdSpread > 0 then cfg.positionSize * (1 / st.stdSpread)
       else cfg.positionSize)
    cfg.maxPositionSize

/-- `void enterPairTrade(pairId, isLongSpread)`: guard on the risk check,
then submit leg A at the computed size and leg B at the β-scaled size;
long spread buys A and sells B, short spread sells A and buys B. -/
def enterPairTrade (cfg : StatArbitrageConfig)
    (states : List (String × PairState)) (pid : String)
    (isLongSpread : Bool) : List LegOrder :=
  if ¬checkRiskLimits cfg states then []
  else if isLongSpread then
    [{ side := OrderSide.buy,
       volume := calculatePositionSize cfg (findState states pid) },
     { side := OrderSide.sell,
       volume := calculatePositionSize cfg (findState states pid) *
         (findState states pid).beta }]
  else
    [{ side := OrderSide.sell,
       volume := calculatePositionSize cfg (findState states pid) },
     { side := OrderSide.buy,
       volume := calculatePositionSize cfg (findState states pid) *
         (findState states pid).beta }]

/-- `void exitPairTrade(pairId)`: nothing to do when both legs are within
the 1e-4 flatness tolerance; otherwise close each leg with an opposite-side
order of the absolute position size. -/
def exitPairTrade (states : List (String × PairState)) (pid : String) :
    List LegOrder :=
  if |(findState states pid).position1| < 1/10000 ∧
     |(findState states pid).position2| < 1/10000 then []
  else
    [{ side := if (findState states pid).position1 > 0 then OrderSide.sell
               else OrderSide.buy,
       volume := |(findState states pid).position1| },
     { side := if (findState states pid).position2 > 0 then OrderSide.sell
               else OrderSide.buy,
       volume := |(findState states pid).position2| }]

/-- `void checkSignals(pairId, state)`: guard on observations and
correlation; z-score from the running stats; entry when both legs are
flat, else the one-sided exit test. -/
def checkSignals (cfg : StatArbitrageConfig)
    (states : List (String × PairState)) (pid : String) (st : PairState) :
    List LegOrder :=
  if ¬hasEnoughData cfg st ∨ |st.correlation| < cfg.corrThreshold then []
  else if |st.position1| < 1/10000 ∧ |st.position2| < 1/10000 then
    if (st.currentSpread - st.meanSpread) / st.stdSpread > cfg.entryZScore then
      enterPairTrade cfg states pid false
    else if (st.currentSpread - st.meanSpread) / st.stdSpread <
        -cfg.entryZScore then
      enterPairTrade cfg states pid true
    else []
  else
    if (st.position1 > 0 ∧
          (st.currentSpread - st.meanSpread) / st.stdSpread ≥ -cfg.exitZScore) ∨
       (¬(st.position1 > 0) ∧
          (st.currentSpread - st.meanSpread) / st.stdSpread ≤ cfg.exitZScore) ∨
       |(st.currentSpread - st.meanSpread) / st.stdSpread| >
         cfg.stopLossZScore then
      exitPairTrade states pid
    else []

end StatArbitrage

/-- Claim C9 (amended): for a pair with enough observations, correlation at
or above the threshold and positive spread stdev: when both legs are flat
and the strategy's own risk check passes, Z > entry_z enters a short
spread (SELL leg A, BUY the β-scaled size of leg B) and Z < −entry_z
enters a long spread, with per-leg size min(position_size/σ,
max_position_size) and leg B scaled by β; while a position is open the
strategy exits iff — for a long spread — Z ≥ −exit_z, for a short spread
Z ≤ exit_z, or |Z| > stop_loss_z (one-sided thresholds, not the two-sided
±exit_z band), closing both legs with opposite-side orders of the absolute
leg sizes. -/
theorem C9_statarb_entry_exit (cfg : StatArbitrageConfig)
    (states : List (String × PairState)) (pid : String) (st : PairState)
    (hlook : alookup states pid = some st)
    (hdata : StatArbitrage.hasEnoughData cfg st)
    (hcorr : cfg.corrThreshold ≤ |st.correlation|)
    (hsigma : 0 < st.stdSpread)
    (hentry : 0 ≤ cfg.entryZScore) :
    (StatArbitrage.calculatePositionSize cfg st =
      min (cfg.positionSize / st.stdSpread) cfg.maxPositionSize) ∧
    (|st.position1| < 1/10000 → |st.position2| < 1/10000 →
      StatArbitrage.checkRiskLimits cfg states →
      ((st.currentSpread - st.meanSpread) / st.stdSpread > cfg.entryZScore →
        StatArbitrage.checkSignals cfg states pid st =
          [{ side := OrderSide.sell,
             volume := StatArbitrage.calculatePositionSize cfg st },
           { side := OrderSide.buy,
             volume := StatArbitrage.calculatePositionSize cfg st * st.beta }]) ∧
      ((st.currentSpread - st.meanSpread) / st.stdSpread < -cfg.entryZScore →
        StatArbitrage.checkSignals cfg states pid st =
          [{ side := OrderSide.buy,
             volume := StatArbitrage.calculatePositionSize cfg st },
           { side := OrderSide.sell,
             volume := StatArbitrage.calculatePositionSize cfg st * st.beta }])) ∧
    (¬(|st.position1| < 1/10000 ∧ |st.position2| < 1/10000) →
      ((StatArbitrage.checkSignals cfg states pid st ≠ []) ↔
        ((st.position1 > 0 ∧
            (st.currentSpread - st.meanSpread) / st.stdSpread ≥ -cfg.exitZScore) ∨
         (¬(st.position1 > 0) ∧
            (st.currentSpread - st.meanSpread) / st.stdSpread ≤ cfg.exitZScore) ∨
         |(st.currentSpread - st.meanSpread) / st.stdSpread| > cfg.stopLossZScore)) ∧
      (((st.position1 > 0 ∧
            (st.currentSpread - st.meanSpread) / st.stdSpread ≥ -cfg.exitZScore) ∨
         (¬(st.position1 > 0) ∧
            (st.currentSpread - st.meanSpread) / st.stdSpread ≤ cfg.exitZScore) ∨
         |(st.currentSpread - st.meanSpread) / st.stdSpread| > cfg.stopLossZScore) →
        StatArbitrage.checkSignals cfg states pid st =
          [{ side := if st.position1 > 0 then OrderSide.sell else OrderSide.buy,
             volume := |st.position1| },
           { side := if st.position2 > 0 then OrderSide.sell else OrderSide.buy,
             volume := |st.position2| }])) := by
  have hcorr' : ¬(|st.correlation| < cfg.corrThreshold) := not_lt.mpr hcorr
  have hguard : ¬(¬StatArbitrage.hasEnoughData cfg st ∨
      |st.correlation| < cfg.corrThreshold) := by simp [hdata, hcorr']
  have hfind : StatArbitrage.findState states pid = st := by
    simp [StatArbitrage.findState, hlook]
  refine ⟨?_, ?_, ?_⟩
  · unfold StatArbitrage.calculatePositionSize
    rw [if_pos hsigma, mul_one_div]
  · intro h1 h2 hrisk
    have hrisk' : ¬¬StatArbitrage.checkRiskLimits cfg states := not_not.mpr hrisk
    constructor
    · intro hz
      unfold StatArbitrage.checkSignals
      rw [if_neg hguard, if_pos ⟨h1, h2⟩, if_pos hz]
      unfold StatArbitrage.enterPairTrade
      rw [if_neg hrisk', hfind]
      rfl
    · intro hz
      have hz2 : ¬((st.currentSpread - st.meanSpread) / st.stdSpread >
          cfg.entryZScore) := not_lt.mpr (by linarith)
      unfold StatArbitrage.checkSignals
      rw [if_neg hguard, if_pos ⟨h1, h2⟩, if_neg hz2, if_pos hz]
      unfold StatArbitrage.enterPairTrade
      rw [if_neg hrisk', hfind]
      rfl
  · intro hnotflat
    have hexit : StatArbitrage.exitPairTrade states pid =
        [{ side := if st.position1 > 0 then OrderSide.sell else OrderSide.buy,
           volume := |st.position1| },
         { side := if st.position2 > 0 then OrderSide.sell else OrderSide.buy,
           volume := |st.position2| }] := by
      unfold StatArbitrage.exitPairTrade
      rw [hfind, if_neg hnotflat]
    constructor
    · by_cases hcond : (st.position1 > 0 ∧
          (st.currentSpread - st.meanSpread) / st.stdSpread ≥ -cfg.exitZScore) ∨
          (¬(st.position1 > 0) ∧
            (st.currentSpread - st.meanSpread) / st.stdSpread ≤ cfg.exitZScore) ∨
          |(st.currentSpread - st.meanSpread) / st.stdSpread| > cfg.stopLossZScore
      · unfold StatArbitrage.checkSignals
        rw [if_neg hguard, if_neg hnotflat, if_pos hcond, hexit]
        exact iff_of_true (by simp) hcond
      · unfold StatArbitrage.checkSignals
        rw [if_neg hguard, if_neg hnotflat, if_neg hcond]
        exact iff_of_false (by simp) hcond
    · intro hcond
      unfold StatArbitrage.checkSignals
      rw [if_neg hguard, if_neg hnotflat, if_pos hcond, hexit]

/-- Stat-arb configuration used in the concrete scenarios: entry 2,
exit 0.5, stop 3, base size 1, max 10, min 1 observation, corr ≥ 0.5. -/
def saCfgEx : StatArbitrageConfig :=
  { lookbackPeriod := 10, entryZScore := 2, exitZScore := 1/2,
    positionSize := 1, maxPositionSize := 10, minObservations := 1,
    corrThreshold := 1/2, maxSpreadValue := 100, stopLossZScore := 3 }

/-- An open long spread (leg A +1, leg B −1) with μ=0, σ=1, current
spread 1, so Z = 1. -/
def saStEx : PairState :=
  { spreadHistory := [0], meanSpread := 0, stdSpread := 1, currentSpread := 1,
    correlation := 1, beta := 1, position1 := 1, position2 := -1,
    entrySpread := -2 }

/-- The pair table holding the open long spread. -/
def saStatesEx : List (String × PairState) := [("AB", saStEx)]

/-- Counterexample to claim C9 as stated: with the long spread open at
Z = 1, Z is neither back inside the ±0.5 exit band nor beyond the stop at
3, yet `checkSignals` exits the position (the source's long-spread exit
test is the one-sided `Z >= -exit_z`). -/
theorem C9_exit_band_counterexample :
    StatArbitrage.checkSignals saCfgEx saStatesEx "AB" saStEx =
      [{ side := OrderSide.sell, volume := 1 },
       { side := OrderSide.buy, volume := 1 }] ∧
    (saStEx.currentSpread - saStEx.meanSpread) / saStEx.stdSpread = 1 ∧
    ¬(|(1 : ℚ)| ≤ saCfgEx.exitZScore) ∧
    ¬(|(1 : ℚ)| > saCfgEx.stopLossZScore) := by
  refine ⟨?_, by norm_num [saStEx], by norm_num [saCfgEx], by norm_num [saCfgEx]⟩
  norm_num [StatArbitrage.checkSignals, StatArbitrage.hasEnoughData,
    StatArbitrage.exitPairTrade, StatArbitrage.findState, alookup,
    saCfgEx, saStEx, saStatesEx]

/-- A flat pair state with μ=0, σ=1, current spread 2.5 (Z = 2.5), β=1. -/
def saStFlat : PairState :=
  { spreadHistory := [0], meanSpread := 0, stdSpread := 1,
    currentSpread := 5/2, correlation := 1, beta := 1, position1 := 0,
    position2 := 0, entrySpread := 0 }

/-- The pair table holding the flat pair. -/
def saStatesFlat : List (String × PairState) := [("AB", saStFlat)]

/-- Concrete instantiation of C9 (amended): with Z = 2.5 > entry 2 and both
legs flat, the strategy enters a short spread. -/
theorem C9_statarb_entry_exit_witness :
    StatArbitrage.checkSignals saCfgEx saStatesFlat "AB" saStFlat =
      [{ side := OrderSide.sell,
         volume := StatArbitrage.calculatePositionSize saCfgEx saStFlat },
       { side := OrderSide.buy,
         volume := StatArbitrage.calculatePositionSize saCfgEx saStFlat *
           saStFlat.beta }] :=
  ((C9_statarb_entry_exit saCfgEx saStatesFlat "AB" saStFlat
      (by simp [alookup, saStatesFlat])
      (by norm_num [StatArbitrage.hasEnoughData, saCfgEx, saStFlat])
      (by norm_num [saCfgEx, saStFlat])
      (by norm_num [saStFlat])
      (by norm_num [saCfgEx])).2.1
    (by norm_num [saStFlat]) (by norm_num [saStFlat])
    (by
      intro p hp
      simp [saStatesFlat] at hp
      subst hp
      norm_num [saStFlat, saCfgEx])).1
    (by norm_num [saStFlat, saCfgEx])

end QuantEngine
